import Mathlib

/-!
Shallow embedding of the two dashboard scripts of this repository:

* `election_margins_app.py` (pipeline B): a seeded synthetic election-data
  generator, a sidebar filter pipeline, and two top-5 "shift" tables.
* `app_challenge3.py` (pipeline A): loading/harmonizing three tabular data
  sources, a GDP fetch with a documented fallback, two inner joins,
  a melt to long format and a per-year share normalization.

Dataframes are modelled as lists of typed rows; nullable (NaN-able) columns
as `Option`; numeric columns as `ℚ`.  The numpy PRNG is modelled as an
abstract state machine (`NpRandom`) whose draw functions are threaded
through the generator exactly in the order the Python code consumes them.
-/

set_option maxRecDepth 100000

/-! ### Numeric helpers (numpy / python primitives) -/

/-- `np.clip(x, lo, hi)` — equivalent to `np.minimum(hi, np.maximum(x, lo))`. -/
def npClip (x lo hi : ℚ) : ℚ := min hi (max x lo)

/-- Round-half-to-even to the nearest integer, the idealized semantics of
python's builtin `round` on exact values. Ties (fractional part exactly 1/2)
go to the even neighbour; all other values go to the nearest integer. -/
def roundHalfEven (q : ℚ) : ℤ :=
  if q - ⌊q⌋ = 1 / 2 then (if ⌊q⌋ % 2 = 0 then ⌊q⌋ else ⌊q⌋ + 1)
  else ⌊q + 1 / 2⌋

/-- `round(q, 1)`: round to one decimal digit (half-to-even). -/
def round1 (q : ℚ) : ℚ := (roundHalfEven (10 * q) : ℚ) / 10

/-! ### Pipeline B data model: `generate_sample_data` -/

/-- One row of the dataframe built by `generate_sample_data`
(`election_margins_app.py`, lines 30-37 and 50-57). -/
structure CountyRecord where
  county : String
  state : String
  margin_2020 : ℚ
  margin_2024 : ℚ
  total_votes : ℤ
  party : String
deriving DecidableEq

/-- The `states` list of `election_margins_app.py`, line 15. -/
def states : List String :=
  ["Texas", "California", "Florida", "Pennsylvania", "Ohio", "Georgia",
   "Michigan", "Arizona"]

/-- Abstract model of the (global, seeded) numpy PRNG: a seeding function
and one state-passing draw function per `np.random` primitive the script
uses.  `seed` models `np.random.seed`; each draw returns the drawn value
together with the successor state. -/
structure NpRandom (σ : Type) where
  seed : ℕ → σ
  choice : List String → σ → String × σ
  uniform : ℚ → ℚ → σ → ℚ × σ
  normal : ℚ → ℚ → σ → ℚ × σ
  randint : ℤ → ℤ → σ → ℤ × σ

/-- One iteration of the generation loops of `generate_sample_data`
(`election_margins_app.py`, lines 20-37 for `isRep = true`, 40-57 for
`isRep = false`).  Draws are consumed in source order:
`choice(states)`, `uniform`, `normal(0,3)`, `normal(0,4)`, `randint`;
both margins are clipped into `[1, 95]` (Republican branch) or
`[-95, -1]` (Democrat branch) and then rounded to one decimal. -/
def genCounty {σ : Type} (rng : NpRandom σ) (isRep : Bool) (i : ℕ) (s : σ) :
    CountyRecord × σ :=
  let c := rng.choice states s
  let u := if isRep then rng.uniform 5 85 c.2 else rng.uniform (-85) (-5) c.2
  let z20 := rng.normal 0 3 u.2
  let z24 := rng.normal 0 4 z20.2
  let m20 := npClip (u.1 + z20.1) (if isRep then 1 else -95)
      (if isRep then 95 else -1)
  let m24 := npClip (u.1 + z24.1) (if isRep then 1 else -95)
      (if isRep then 95 else -1)
  let v := rng.randint 100 80000 z24.2
  ({ county := "County " ++ toString (i + 1)
     state := c.1
     margin_2020 := round1 m20
     margin_2024 := round1 m24
     total_votes := v.1
     party := if isRep then "Republican" else "Democrat" }, v.2)

/-- The `for i in range(...)` loops of `generate_sample_data`, threading the
PRNG state through successive `genCounty` calls. -/
def genLoop {σ : Type} (rng : NpRandom σ) (isRep : Bool) :
    List ℕ → σ → List CountyRecord × σ
  | [], s => ([], s)
  | i :: is, s =>
      let p := genCounty rng isRep i s
      let q := genLoop rng isRep is p.2
      (p.1 :: q.1, q.2)

/-- `generate_sample_data` (`election_margins_app.py`, lines 11-59):
seed the PRNG (the script calls `np.random.seed(42)`), generate 120
Republican counties for `i in range(120)`, then 120 Democrat counties for
`i in range(120, 240)`, and return their concatenation. -/
def generate_sample_data {σ : Type} (rng : NpRandom σ) (seedVal : ℕ) :
    List CountyRecord :=
  let s0 := rng.seed seedVal
  let reps := genLoop rng true (List.range 120) s0
  let dems := genLoop rng false (List.range' 120 120) reps.2
  reps.1 ++ dems.1

/-- A concrete (trivial) PRNG instance, used to evaluate the generator on
closed inputs: every draw returns the least admissible value. -/
def trivRng : NpRandom Unit where
  seed := fun _ => ()
  choice := fun l s => (l.headD "", s)
  uniform := fun lo _ s => (lo, s)
  normal := fun _ _ s => ((0 : ℚ), s)
  randint := fun lo _ s => (lo, s)

/-- Decode the numeric part of a county name: drop the 7 characters of
`"County "` and read the remaining decimal digits. A left inverse of the
name construction, used to establish that county names are distinct. -/
def decodeDigits (l : List Char) : ℕ :=
  l.foldl (fun acc c => acc * 10 + (c.toNat - 48)) 0

def countyIdx (s : String) : ℕ := decodeDigits (s.data.drop 7)

/-! ### Pipeline B: the sidebar filter (`election_margins_app.py`, lines 82-86)

The script filters `df` by the selected state (`"All"` is a wildcard), by a
minimum `total_votes` threshold (inclusive), and finally by
`df["party"].isin(party_filter)`.  The name `party_filter` is **never
assigned anywhere in the script**, so python raises `NameError` when that
line runs.  The name lookup is modelled by an `Option` argument: `none`
means the name is unbound (the state of the actual script), `some ps`
means it is bound to the list `ps`. -/

def filtered_df (df : List CountyRecord) (selected_state : String)
    (min_votes : ℤ) (env_party_filter : Option (List String)) :
    Except String (List CountyRecord) :=
  let step1 := df
  let step2 :=
    if selected_state ≠ "All" then step1.filter (fun r => r.state = selected_state)
    else step1
  let step3 := step2.filter (fun r => min_votes ≤ r.total_votes)
  match env_party_filter with
  | none => .error "NameError: name party_filter is not defined"
  | some ps => .ok (step3.filter (fun r => r.party ∈ ps))

/-- The binding of the name `party_filter` in the script: there is none
(the variable is referenced at line 86 but defined nowhere). -/
def party_filter_binding : Option (List String) := none

/-- The filter pipeline exactly as the script runs it, with the unbound
`party_filter` name. -/
def script_filtered_df (df : List CountyRecord) (selected_state : String)
    (min_votes : ℤ) : Except String (List CountyRecord) :=
  filtered_df df selected_state min_votes party_filter_binding

/-! ### Pipeline B: derived metrics (`election_margins_app.py`, lines 208-219) -/

/-- The `change` column: `margin_2024 - margin_2020` (line 208). -/
def change (r : CountyRecord) : ℚ := r.margin_2024 - r.margin_2020

inductive ShiftDirection where
  | mostPositive : ShiftDirection
  | mostNegative : ShiftDirection
deriving DecidableEq

/-- Comparator for a stable descending sort by `key`. -/
def descBy {α : Type} (key : α → ℚ) (a b : α) : Bool := decide (key b ≤ key a)

/-- Comparator for a stable ascending sort by `key`. -/
def ascBy {α : Type} (key : α → ℚ) (a b : α) : Bool := decide (key a ≤ key b)

/-- pandas `DataFrame.nlargest(n, col)` (default `keep="first"`), which is
documented as equivalent to a stable descending sort on `col` followed by
`head(n)`; ties are therefore resolved in favour of earlier rows. -/
def nlargestBy {α : Type} (key : α → ℚ) (n : ℕ) (l : List α) : List α :=
  (l.mergeSort (descBy key)).take n

/-- pandas `DataFrame.nsmallest(n, col)` (default `keep="first"`): stable
ascending sort on `col` followed by `head(n)`. -/
def nsmallestBy {α : Type} (key : α → ℚ) (n : ℕ) (l : List α) : List α :=
  (l.mergeSort (ascBy key)).take n

/-- The two top-shift tables (`top_r` at line 213 via `nlargest(5,
"change")`, `top_d` at line 218 via `nsmallest(5, "change")`), generalized
over `n`; the script then projects display columns, which does not affect
row selection or order. -/
def top_shift (records : List CountyRecord) (n : ℕ) :
    ShiftDirection → List CountyRecord
  | .mostPositive => nlargestBy change n records
  | .mostNegative => nsmallestBy change n records

/-! ### Pipeline A data model (`app_challenge3.py`)

Rows of the three source tables after column renaming (both the
`clean_names` and the plain rename branch of the code produce the same
canonical column names, so rows are modelled directly with canonical
fields).  Nullable columns are `Option ℚ` / `Option String`. -/

/-- A row of the OWID energy table after renaming
(`app_challenge3.py`, lines 44-59), restricted to the columns the script
uses. -/
structure EnergyRawRow where
  iso_code : Option String
  country : String
  year : ℤ
  electricity_generation : Option ℚ
  biofuel : Option ℚ
  coal : Option ℚ
  gas : Option ℚ
  hydro : Option ℚ
  nuclear : Option ℚ
  oil : Option ℚ
  other_renewable : Option ℚ
  solar : Option ℚ
  wind : Option ℚ
  gdp : Option ℚ
  population : Option ℚ
deriving DecidableEq

/-- A row of the OWID CO₂ table after renaming (`app_challenge3.py`,
lines 23-40). -/
structure Co2Row where
  iso_code : Option String
  country : String
  year : ℤ
  co2_per_capita : Option ℚ
deriving DecidableEq

/-- A row of the World Bank GDP frame after `reset_index` and renaming
(`app_challenge3.py`, lines 67-79): the `economy` index is a non-null
code; `gdp_percap` may still be missing before the `dropna`. -/
structure WbRow where
  iso_code : String
  year : ℤ
  gdp_percap : Option ℚ
deriving DecidableEq

/-- A row of the GDP table as returned by `fetch_gdp_or_fallback`
(columns `["iso_code", "year", "gdp_percap"]`, all present). -/
structure GdpRow where
  iso_code : String
  year : ℤ
  gdp_percap : ℚ
deriving DecidableEq

/-- Harmonization of the CO₂ table (`app_challenge3.py`, line 41):
`co2 = co2[co2["year"] >= 1990]`.  Note: no `dropna` on `iso_code`. -/
def harmonizeCo2 (l : List Co2Row) : List Co2Row :=
  l.filter (fun r => 1990 ≤ r.year)

/-- Harmonization of the energy table (`app_challenge3.py`, line 60):
`energy.query("year >= 1990").dropna(subset=["iso_code"])`. -/
def harmonizeEnergy (l : List EnergyRawRow) : List EnergyRawRow :=
  (l.filter (fun r => 1990 ≤ r.year)).filter (fun r => r.iso_code.isSome)

/-- The primary GDP path after a successful fetch (`app_challenge3.py`,
lines 75-81): rename, `dropna(subset=["gdp_percap"])`, project
`[iso_code, year, gdp_percap]`. -/
def processPrimaryGdp (t : List WbRow) : List GdpRow :=
  t.filterMap (fun w => w.gdp_percap.map
    (fun q => { iso_code := w.iso_code, year := w.year, gdp_percap := q }))

/-- The fallback GDP computation (`app_challenge3.py`, lines 87-89):
project `[iso_code, year, gdp, population]`, `dropna()` (drops a row if
any of the four is missing), assign `gdp_percap = gdp / population`,
project the output schema. -/
def fallbackGdp (l : List EnergyRawRow) : List GdpRow :=
  l.filterMap (fun e =>
    match e.iso_code, e.gdp, e.population with
    | some i, some g, some p =>
        some { iso_code := i, year := e.year, gdp_percap := g / p }
    | _, _, _ => none)

/-- `fetch_gdp_or_fallback` (`app_challenge3.py`, lines 65-89).  The
outcome of the remote `wb.data.DataFrame` call (which the `try` guards)
is a parameter: `.ok t` is a successful fetch of table `t`, `.error e` an
exception with message `e`.  The boolean records whether the `except`
branch ran, i.e. whether `st.warning` was surfaced. -/
def fetch_gdp_or_fallback (primaryFetch : Except String (List WbRow))
    (energy_df_for_fallback : List EnergyRawRow) : List GdpRow × Bool :=
  match primaryFetch with
  | .ok t => (processPrimaryGdp t, false)
  | .error _ => (fallbackGdp energy_df_for_fallback, true)

/-- The intermediate frame of the first inner join
(`pd.merge(energy[...], gdp[...], on=["iso_code","year"], how="inner")`,
`app_challenge3.py`, lines 94-103). -/
structure MergedRow where
  iso_code : Option String
  country : String
  year : ℤ
  electricity_generation : Option ℚ
  biofuel : Option ℚ
  coal : Option ℚ
  gas : Option ℚ
  hydro : Option ℚ
  nuclear : Option ℚ
  oil : Option ℚ
  other_renewable : Option ℚ
  solar : Option ℚ
  wind : Option ℚ
  gdp_percap : ℚ
deriving DecidableEq

/-- The `combined` frame after the second inner join and the continent
assignment (`app_challenge3.py`, lines 105-114). -/
structure CombinedRow where
  iso_code : Option String
  country : String
  year : ℤ
  electricity_generation : Option ℚ
  biofuel : Option ℚ
  coal : Option ℚ
  gas : Option ℚ
  hydro : Option ℚ
  nuclear : Option ℚ
  oil : Option ℚ
  other_renewable : Option ℚ
  solar : Option ℚ
  wind : Option ℚ
  gdp_percap : ℚ
  co2_per_capita : Option ℚ
  continent : Option String
deriving DecidableEq

def mkMergedRow (e : EnergyRawRow) (g : GdpRow) : MergedRow :=
  { iso_code := e.iso_code, country := e.country, year := e.year
    electricity_generation := e.electricity_generation
    biofuel := e.biofuel, coal := e.coal, gas := e.gas, hydro := e.hydro
    nuclear := e.nuclear, oil := e.oil
    other_renewable := e.other_renewable, solar := e.solar, wind := e.wind
    gdp_percap := g.gdp_percap }

def mkCombinedRow (m : MergedRow) (c : Co2Row) : CombinedRow :=
  { iso_code := m.iso_code, country := m.country, year := m.year
    electricity_generation := m.electricity_generation
    biofuel := m.biofuel, coal := m.coal, gas := m.gas, hydro := m.hydro
    nuclear := m.nuclear, oil := m.oil
    other_renewable := m.other_renewable, solar := m.solar, wind := m.wind
    gdp_percap := m.gdp_percap, co2_per_capita := c.co2_per_capita
    continent := none }

/-- First inner join on `(iso_code, year)`: energy ⋈ gdp.  pandas keeps
left-row order and, for each left row, all matching right rows (NaN keys
match NaN keys, which `Option` equality reproduces). -/
def mergeEnergyGdp (energy : List EnergyRawRow) (gdp : List GdpRow) :
    List MergedRow :=
  energy.flatMap (fun e =>
    (gdp.filter (fun g => e.iso_code = some g.iso_code ∧ e.year = g.year)).map
      (mkMergedRow e))

/-- Second inner join on `(iso_code, year)`: (energy ⋈ gdp) ⋈ co2. -/
def mergeCo2 (merged : List MergedRow) (co2 : List Co2Row) :
    List CombinedRow :=
  merged.flatMap (fun m =>
    (co2.filter (fun c => m.iso_code = c.iso_code ∧ m.year = c.year)).map
      (mkCombinedRow m))

/-- The two sequential inner joins of `load_data`
(`app_challenge3.py`, lines 94-110). -/
def load_merge (energy : List EnergyRawRow) (gdp : List GdpRow)
    (co2 : List Co2Row) : List CombinedRow :=
  mergeCo2 (mergeEnergyGdp energy gdp) co2

/-- `combined["continent"] = coco.convert(names=..., not_found=None)`
(`app_challenge3.py`, lines 113-114), with the name→continent classifier
as a parameter. -/
def enrich (conv : String → Option String) (rows : List CombinedRow) :
    List CombinedRow :=
  rows.map (fun r => { r with continent := conv r.country })

/-- Join keys. -/
def energyKey (e : EnergyRawRow) : Option String × ℤ := (e.iso_code, e.year)

def gdpKey (g : GdpRow) : Option String × ℤ := (some g.iso_code, g.year)

def co2Key (c : Co2Row) : Option String × ℤ := (c.iso_code, c.year)

def combKey (r : CombinedRow) : Option String × ℤ := (r.iso_code, r.year)

/-- Completeness of the metric columns of an output row (the eleven
nullable metrics; `gdp_percap` is always present by type). -/
def rowComplete (r : CombinedRow) : Prop :=
  r.electricity_generation.isSome ∧ r.biofuel.isSome ∧ r.coal.isSome ∧
  r.gas.isSome ∧ r.hydro.isSome ∧ r.nuclear.isSome ∧ r.oil.isSome ∧
  r.other_renewable.isSome ∧ r.solar.isSome ∧ r.wind.isSome ∧
  r.co2_per_capita.isSome

instance (r : CombinedRow) : Decidable (rowComplete r) := by
  unfold rowComplete; infer_instance

/-- Completeness of the metric columns of an energy input row (the ten
nullable metrics carried into the merge). -/
def energyComplete (e : EnergyRawRow) : Prop :=
  e.electricity_generation.isSome ∧ e.biofuel.isSome ∧ e.coal.isSome ∧
  e.gas.isSome ∧ e.hydro.isSome ∧ e.nuclear.isSome ∧ e.oil.isSome ∧
  e.other_renewable.isSome ∧ e.solar.isSome ∧ e.wind.isSome

instance (e : EnergyRawRow) : Decidable (energyComplete e) := by
  unfold energyComplete; infer_instance

/-! ### Pipeline A: long format and electricity-mix shares
(`app_challenge3.py`, lines 117-133 and 172-179) -/

/-- A row of `long_energy`: the melt id columns plus `(source, value)`;
`value` is non-null because of `dropna(subset=["value"])`. -/
structure LongRow where
  iso_code : Option String
  country : String
  year : ℤ
  gdp_percap : ℚ
  co2_per_capita : Option ℚ
  continent : Option String
  electricity_generation : Option ℚ
  source : String
  value : ℚ
deriving DecidableEq

/-- The nine melted value columns, in `value_vars` order. -/
def sourceCols : List (String × (CombinedRow → Option ℚ)) :=
  [("biofuel", fun r => r.biofuel), ("coal", fun r => r.coal),
   ("gas", fun r => r.gas), ("hydro", fun r => r.hydro),
   ("nuclear", fun r => r.nuclear), ("oil", fun r => r.oil),
   ("other_renewable", fun r => r.other_renewable),
   ("solar", fun r => r.solar), ("wind", fun r => r.wind)]

def mkLongRow (r : CombinedRow) (s : String) (v : ℚ) : LongRow :=
  { iso_code := r.iso_code, country := r.country, year := r.year
    gdp_percap := r.gdp_percap, co2_per_capita := r.co2_per_capita
    continent := r.continent
    electricity_generation := r.electricity_generation
    source := s, value := v }

/-- `combined.melt(id_vars=..., value_vars=..., var_name="source",
value_name="value").dropna(subset=["value"])` (`app_challenge3.py`,
lines 118-133): pandas stacks one melted column after another; rows whose
underlying value is null are dropped, not zero-filled. -/
def long_energy (rows : List CombinedRow) : List LongRow :=
  sourceCols.flatMap (fun p => rows.filterMap (fun r => (p.2 r).map (mkLongRow r p.1)))

/-- The sidebar filter applied to the long table (`app_challenge3.py`,
lines 156-159): one selected country and an inclusive year range. -/
def filter_long (c : String) (y1 y2 : ℤ) (rows : List LongRow) : List LongRow :=
  rows.filter (fun r => r.country = c ∧ y1 ≤ r.year ∧ r.year ≤ y2)

/-- Pandas float results of the share division: a finite value, `NaN`
(dropped by `dropna`) or a signed infinity (NOT dropped by `dropna`). -/
inductive PVal where
  | nan : PVal
  | posinf : PVal
  | neginf : PVal
  | num : ℚ → PVal
deriving DecidableEq

/-- Float division as pandas performs it in `r / r.sum()`:
`0/0 = NaN`, `x/0 = ±inf` for `x ≠ 0`, finite otherwise. -/
def pandasDiv (a b : ℚ) : PVal :=
  if b = 0 then (if a = 0 then .nan else if 0 < a then .posinf else .neginf)
  else .num (a / b)

/-- The finite value of a share (0 for `NaN`/infinities); only applied
where all shares are proved finite. -/
def PVal.toQ : PVal → ℚ
  | .num q => q
  | _ => 0

/-- A row of the `mix` frame after the final melt: `(year, source, share)`. -/
structure MixRow where
  year : ℤ
  source : String
  share : PVal
deriving DecidableEq

/-- The distinct years of the long table (the pivot index). -/
def yearsOf (rows : List LongRow) : List ℤ := (rows.map (fun r => r.year)).dedup

/-- The distinct sources of the long table (the pivot columns). -/
def sourcesOf (rows : List LongRow) : List String :=
  (rows.map (fun r => r.source)).dedup

/-- The values aggregated into the pivot cell `(y, s)`. -/
def cellVals (rows : List LongRow) (y : ℤ) (s : String) : List ℚ :=
  (rows.filter (fun r => r.year = y ∧ r.source = s)).map (fun r => r.value)

/-- `pivot_table(index="year", columns="source", values="value",
aggfunc="sum")`: the cell is the sum of the matching values, `NaN` (i.e.
`none`) when no row matches. -/
def cellAgg (rows : List LongRow) (y : ℤ) (s : String) : Option ℚ :=
  if cellVals rows y s = [] then none else some (cellVals rows y s).sum

/-- `r.sum()` for the pivot row of year `y`: the sum of the non-null
cells (pandas `sum` skips `NaN`). -/
def rowDenom (rows : List LongRow) (y : ℤ) : ℚ :=
  ((sourcesOf rows).filterMap (fun s => cellAgg rows y s)).sum

/-- The share cell `(y, s)` after `.apply(lambda r: r / r.sum(), axis=1)`:
a null cell stays null (`NaN`), otherwise pandas float division by the
row sum. -/
def shareCell (rows : List LongRow) (y : ℤ) (s : String) : PVal :=
  match cellAgg rows y s with
  | none => .nan
  | some v => pandasDiv v (rowDenom rows y)

/-- The rows the final melt-plus-`dropna` of `mix` produces for the pivot
row of year `y`: one `(year, source, share)` row per source column whose
share is not `NaN`. -/
def mixBlock (rows : List LongRow) (y : ℤ) : List MixRow :=
  (sourcesOf rows).filterMap (fun s =>
    match shareCell rows y s with
    | .nan => none
    | p => some { year := y, source := s, share := p })

/-- The `mix` frame (`app_challenge3.py`, lines 172-179): pivot, divide
each row by its sum, melt back to `(year, source, share)` and `.dropna()`
(which removes `NaN` shares — including the null cells — but keeps
infinities). -/
def mix (rows : List LongRow) : List MixRow :=
  (yearsOf rows).flatMap (fun y => mixBlock rows y)

/-- The total of all values of the year-`y` group of the long table. -/
def rowSumQ (rows : List LongRow) (y : ℤ) : ℚ :=
  ((rows.filter (fun r => r.year = y)).map (fun r => r.value)).sum

/-! ### Concrete inputs used for witnesses and counterexamples -/

/-- The first record the generator produces under `trivRng`. -/
def exRec1 : CountyRecord :=
  { county := "County 1", state := "Texas", margin_2020 := 5,
    margin_2024 := 5, total_votes := 100, party := "Republican" }

/-- An energy table with one harmonizable row whose `biofuel` metric is
missing (as in the real OWID data, where many source columns are null). -/
def exE3 : List EnergyRawRow :=
  [{ iso_code := some "AAA", country := "Aaaland", year := 2000,
     electricity_generation := some 10, biofuel := none, coal := some 4,
     gas := some 3, hydro := some 1, nuclear := some 1, oil := some 1,
     other_renewable := none, solar := none, wind := none,
     gdp := some 50, population := some 5 }]

def exG3 : List GdpRow := [{ iso_code := "AAA", year := 2000, gdp_percap := 10 }]

def exC3 : List Co2Row :=
  [{ iso_code := some "AAA", country := "Aaaland", year := 2000,
     co2_per_capita := some 2 }]

/-- A variant of `exE3` with all metric columns present. -/
def exE3c : List EnergyRawRow :=
  [{ iso_code := some "AAA", country := "Aaaland", year := 2000,
     electricity_generation := some 10, biofuel := some 0, coal := some 4,
     gas := some 3, hydro := some 1, nuclear := some 1, oil := some 1,
     other_renewable := some 0, solar := some 0, wind := some 1,
     gdp := some 50, population := some 5 }]

/-- A CO₂ row with a missing region code (as OWID world/region aggregate
rows have) and a year past the cutoff. -/
def exC9 : List Co2Row :=
  [{ iso_code := none, country := "Africa", year := 2000,
     co2_per_capita := some 5 }]

/-- An energy table used as fallback input for the GDP computation. -/
def exFB : List EnergyRawRow :=
  [{ iso_code := some "GBR", country := "United Kingdom", year := 2000,
     electricity_generation := some 10, biofuel := some 1, coal := some 4,
     gas := some 3, hydro := some 1, nuclear := some 1, oil := some 0,
     other_renewable := some 0, solar := some 0, wind := some 0,
     gdp := some 30, population := some 10 }]

/-- A combined row whose only non-null source value is `coal = 0`:
its year group has a non-null value but a zero sum. -/
def exComb0 : CombinedRow :=
  { iso_code := some "XXX", country := "Xland", year := 2000,
    electricity_generation := some 0, biofuel := none, coal := some 0,
    gas := none, hydro := none, nuclear := none, oil := none,
    other_renewable := none, solar := none, wind := none,
    gdp_percap := 1, co2_per_capita := some 1, continent := none }

/-- A combined row with two non-null source values `coal = 3`, `gas = 1`
(non-zero group sum). -/
def exComb1 : CombinedRow :=
  { iso_code := some "XXX", country := "Xland", year := 2000,
    electricity_generation := some 4, biofuel := none, coal := some 3,
    gas := some 1, hydro := none, nuclear := none, oil := none,
    other_renewable := none, solar := none, wind := none,
    gdp_percap := 1, co2_per_capita := some 1, continent := none }

/-- The filtered long table built from `exComb0` through the real chain. -/
def exLong0 : List LongRow := filter_long "Xland" 1990 2100 (long_energy [exComb0])

/-- The filtered long table built from `exComb1` through the real chain. -/
def exLong1 : List LongRow := filter_long "Xland" 1990 2100 (long_energy [exComb1])

/-- A small concrete record list with a tie in `change`, for evaluating
the top-shift operation on a closed input. -/
def exRecsC5 : List CountyRecord :=
  [{ county := "County 1", state := "Texas", margin_2020 := 10,
     margin_2024 := 12, total_votes := 500, party := "Republican" },
   { county := "County 2", state := "Ohio", margin_2020 := 20,
     margin_2024 := 25, total_votes := 600, party := "Republican" },
   { county := "County 3", state := "Texas", margin_2020 := 30,
     margin_2024 := 32, total_votes := 700, party := "Republican" }]

/-! ## Theorems -/

/-! ### Numeric helper lemmas -/

theorem npClip_bounds (x lo hi : ℚ) (h : lo ≤ hi) :
    lo ≤ npClip x lo hi ∧ npClip x lo hi ≤ hi :=
  ⟨le_min h (le_max_right x lo), min_le_left hi _⟩

theorem abs_roundHalfEven_sub (q : ℚ) :
    |(roundHalfEven q : ℚ) - q| ≤ 1 / 2 := by
  unfold roundHalfEven
  by_cases h : q - (⌊q⌋ : ℚ) = 1 / 2
  · rw [if_pos h]
    by_cases he : ⌊q⌋ % 2 = 0
    · rw [if_pos he, abs_le]
      constructor <;> linarith
    · rw [if_neg he, abs_le]
      push_cast
      constructor <;> linarith
  · rw [if_neg h]
    have h1 := Int.floor_le (q + 1 / 2)
    have h2 := Int.lt_floor_add_one (q + 1 / 2)
    rw [abs_le]
    constructor <;> push_cast at h1 h2 ⊢ <;> linarith

theorem le_roundHalfEven {a : ℤ} {q : ℚ} (h : (a : ℚ) ≤ q) :
    a ≤ roundHalfEven q := by
  have hb := abs_roundHalfEven_sub q
  rw [abs_le] at hb
  have h1 : ((a - 1 : ℤ) : ℚ) < (roundHalfEven q : ℚ) := by push_cast; linarith
  have h2 : (a - 1 : ℤ) < roundHalfEven q := by exact_mod_cast h1
  omega

theorem roundHalfEven_le {b : ℤ} {q : ℚ} (h : q ≤ (b : ℚ)) :
    roundHalfEven q ≤ b := by
  have hb := abs_roundHalfEven_sub q
  rw [abs_le] at hb
  have h1 : (roundHalfEven q : ℚ) < ((b + 1 : ℤ) : ℚ) := by push_cast; linarith
  have h2 : roundHalfEven q < b + 1 := by exact_mod_cast h1
  omega

theorem round1_bounds {a b : ℤ} {q : ℚ} (h1 : (a : ℚ) ≤ q) (h2 : q ≤ (b : ℚ)) :
    (a : ℚ) ≤ round1 q ∧ round1 q ≤ (b : ℚ) := by
  have hl : ((10 * a : ℤ) : ℚ) ≤ 10 * q := by push_cast; linarith
  have hr : 10 * q ≤ ((10 * b : ℤ) : ℚ) := by push_cast; linarith
  have l1 := le_roundHalfEven hl
  have l2 := roundHalfEven_le hr
  have c1 : ((10 * a : ℤ) : ℚ) ≤ (roundHalfEven (10 * q) : ℚ) := by exact_mod_cast l1
  have c2 : (roundHalfEven (10 * q) : ℚ) ≤ ((10 * b : ℤ) : ℚ) := by exact_mod_cast l2
  unfold round1
  push_cast at c1 c2
  constructor <;> linarith

theorem round1_clip_pos (q : ℚ) :
    1 ≤ round1 (npClip q 1 95) ∧ round1 (npClip q 1 95) ≤ 95 := by
  obtain ⟨h1, h2⟩ := npClip_bounds q 1 95 (by norm_num)
  have := round1_bounds (a := 1) (b := 95) (by exact_mod_cast h1) (by exact_mod_cast h2)
  exact_mod_cast this

theorem round1_clip_neg (q : ℚ) :
    -95 ≤ round1 (npClip q (-95) (-1)) ∧ round1 (npClip q (-95) (-1)) ≤ -1 := by
  obtain ⟨h1, h2⟩ := npClip_bounds q (-95) (-1) (by norm_num)
  have := round1_bounds (a := -95) (b := -1) (by exact_mod_cast h1) (by exact_mod_cast h2)
  exact_mod_cast this

/-! ### Generator lemmas -/

theorem genLoop_mem {σ : Type} (rng : NpRandom σ) (b : Bool) :
    ∀ (is : List ℕ) (s : σ) (r : CountyRecord),
      r ∈ (genLoop rng b is s).1 → ∃ i s', i ∈ is ∧ r = (genCounty rng b i s').1
  | [], _, r, h => by simp [genLoop] at h
  | i :: is, s, r, h => by
      simp only [genLoop, List.mem_cons] at h
      rcases h with h | h
      · exact ⟨i, s, List.mem_cons_self i is, h⟩
      · obtain ⟨j, s', hj, hr⟩ := genLoop_mem rng b is _ r h
        exact ⟨j, s', List.mem_cons_of_mem _ hj, hr⟩

theorem genLoop_map_county {σ : Type} (rng : NpRandom σ) (b : Bool) :
    ∀ (is : List ℕ) (s : σ),
      ((genLoop rng b is s).1.map (fun r => r.county)) =
        is.map (fun i => "County " ++ toString (i + 1))
  | [], _ => rfl
  | i :: is, s => by
      simp only [genLoop, List.map_cons, genLoop_map_county rng b is]
      rfl

theorem genLoop_length {σ : Type} (rng : NpRandom σ) (b : Bool)
    (is : List ℕ) (s : σ) : ((genLoop rng b is s).1).length = is.length := by
  have h := congrArg List.length (genLoop_map_county rng b is s)
  simpa using h

theorem genCounty_party {σ : Type} (rng : NpRandom σ) (b : Bool) (i : ℕ) (s : σ) :
    ((genCounty rng b i s).1).party = if b then "Republican" else "Democrat" := rfl

theorem genCounty_votes {σ : Type} (rng : NpRandom σ) (b : Bool) (i : ℕ) (s : σ) :
    ∃ s', ((genCounty rng b i s).1).total_votes = (rng.randint 100 80000 s').1 :=
  ⟨_, rfl⟩

theorem genCounty_rep_bounds {σ : Type} (rng : NpRandom σ) (i : ℕ) (s : σ) :
    1 ≤ ((genCounty rng true i s).1).margin_2020 ∧
    ((genCounty rng true i s).1).margin_2020 ≤ 95 ∧
    1 ≤ ((genCounty rng true i s).1).margin_2024 ∧
    ((genCounty rng true i s).1).margin_2024 ≤ 95 :=
  ⟨(round1_clip_pos _).1, (round1_clip_pos _).2,
   (round1_clip_pos _).1, (round1_clip_pos _).2⟩

theorem genCounty_dem_bounds {σ : Type} (rng : NpRandom σ) (i : ℕ) (s : σ) :
    -95 ≤ ((genCounty rng false i s).1).margin_2020 ∧
    ((genCounty rng false i s).1).margin_2020 ≤ -1 ∧
    -95 ≤ ((genCounty rng false i s).1).margin_2024 ∧
    ((genCounty rng false i s).1).margin_2024 ≤ -1 :=
  ⟨(round1_clip_neg _).1, (round1_clip_neg _).2,
   (round1_clip_neg _).1, (round1_clip_neg _).2⟩

theorem generate_eq {σ : Type} (rng : NpRandom σ) (sv : ℕ) :
    generate_sample_data rng sv =
      (genLoop rng true (List.range 120) (rng.seed sv)).1 ++
      (genLoop rng false (List.range' 120 120)
        (genLoop rng true (List.range 120) (rng.seed sv)).2).1 := rfl

/-- Claim C1: every record emitted by `generate_sample_data` has both
margins of the same strict sign and neither margin zero; Republican
records have both margins in `[1, 95]`, Democrat records both margins in
`[-95, -1]` — by construction of the clipping, for every record of the
output and for every PRNG behaviour. -/
theorem c1_margins_same_sign {σ : Type} (rng : NpRandom σ) (sv : ℕ)
    (r : CountyRecord) (h : r ∈ generate_sample_data rng sv) :
    (r.party = "Republican" ∨ r.party = "Democrat") ∧
    (r.party = "Republican" →
      1 ≤ r.margin_2020 ∧ r.margin_2020 ≤ 95 ∧
      1 ≤ r.margin_2024 ∧ r.margin_2024 ≤ 95) ∧
    (r.party = "Democrat" →
      -95 ≤ r.margin_2020 ∧ r.margin_2020 ≤ -1 ∧
      -95 ≤ r.margin_2024 ∧ r.margin_2024 ≤ -1) ∧
    r.margin_2020 ≠ 0 ∧ r.margin_2024 ≠ 0 ∧
    (0 < r.margin_2020 ↔ 0 < r.margin_2024) := by
  rw [generate_eq, List.mem_append] at h
  rcases h with h | h
  · obtain ⟨i, s', -, rfl⟩ := genLoop_mem rng true _ _ r h
    obtain ⟨b1, b2, b3, b4⟩ := genCounty_rep_bounds rng i s'
    refine ⟨Or.inl rfl, fun _ => ⟨b1, b2, b3, b4⟩, fun hp => ?_, ?_, ?_, ?_⟩
    · rw [genCounty_party] at hp
      simp at hp
    · intro h0
      rw [h0] at b1
      norm_num at b1
    · intro h0
      rw [h0] at b3
      norm_num at b3
    · constructor <;> intro <;> linarith
  · obtain ⟨i, s', -, rfl⟩ := genLoop_mem rng false _ _ r h
    obtain ⟨b1, b2, b3, b4⟩ := genCounty_dem_bounds rng i s'
    refine ⟨Or.inr rfl, fun hp => ?_, fun _ => ⟨b1, b2, b3, b4⟩, ?_, ?_, ?_⟩
    · rw [genCounty_party] at hp
      simp at hp
    · intro h0
      rw [h0] at b2
      norm_num at b2
    · intro h0
      rw [h0] at b4
      norm_num at b4
    · constructor <;> intro <;> linarith

theorem c1_margins_same_sign_witness :
    1 ≤ exRec1.margin_2020 ∧ exRec1.margin_2020 ≤ 95 ∧
    1 ≤ exRec1.margin_2024 ∧ exRec1.margin_2024 ≤ 95 :=
  (c1_margins_same_sign trivRng 42 exRec1 (by with_unfolding_all decide)).2.1 rfl

/-- Claim C2: `generate_sample_data` is deterministic — for a fixed seed
(the script uses 42) any two invocations with equal seeds produce
identical output sequences, for every PRNG implementation: the output is
a pure function of the seeded PRNG state. -/
theorem c2_deterministic {σ : Type} (rng : NpRandom σ) (s1 s2 : ℕ)
    (h : s1 = s2) :
    generate_sample_data rng s1 = generate_sample_data rng s2 := by rw [h]

theorem c2_deterministic_witness :
    generate_sample_data trivRng 42 = generate_sample_data trivRng 42 :=
  c2_deterministic trivRng 42 42 rfl

/-- Claim C4 (code bug): the script's filter step always raises
`NameError` — the name `party_filter` used at line 86 of
`election_margins_app.py` is bound nowhere — so it can not return the
unmodified input (or anything else), for any input and filter settings,
including the wildcard state, threshold 0 and both parties selected. -/
theorem c4_filter_raises_name_error (df : List CountyRecord) (st : String)
    (mv : ℤ) :
    script_filtered_df df st mv =
      .error "NameError: name party_filter is not defined" := rfl

set_option maxRecDepth 40000 in
/-- Claim C10: `generate_sample_data` always returns exactly 240 records —
the first 120 Republican, the last 120 Democrat; the county names are
`"County i"` for distinct `i` in `1..240` (hence unique identifiers), and
every `total_votes` lies in `[100, 79999]` (the contract of
`np.random.randint(100, 80000)`). -/
theorem c10_generator_shape {σ : Type} (rng : NpRandom σ) (sv : ℕ)
    (hrand : ∀ s : σ, 100 ≤ (rng.randint 100 80000 s).1 ∧
      (rng.randint 100 80000 s).1 ≤ 79999) :
    (generate_sample_data rng sv).length = 240 ∧
    (∀ r ∈ (generate_sample_data rng sv).take 120, r.party = "Republican") ∧
    (∀ r ∈ (generate_sample_data rng sv).drop 120, r.party = "Democrat") ∧
    ((generate_sample_data rng sv).map (fun r => r.county)) =
      (List.range 240).map (fun i => "County " ++ toString (i + 1)) ∧
    ((generate_sample_data rng sv).map (fun r => r.county)).Nodup ∧
    (∀ r ∈ generate_sample_data rng sv,
      100 ≤ r.total_votes ∧ r.total_votes ≤ 79999) := by
  have hlenR : ((genLoop rng true (List.range 120) (rng.seed sv)).1).length = 120 := by
    rw [genLoop_length]
    exact List.length_range 120
  have hsplit : List.range 120 ++ List.range' 120 120 = List.range 240 := by decide
  have hcounty : ((generate_sample_data rng sv).map (fun r => r.county)) =
      (List.range 240).map (fun i => "County " ++ toString (i + 1)) := by
    rw [generate_eq, List.map_append, genLoop_map_county, genLoop_map_county,
      ← List.map_append, hsplit]
  refine ⟨?_, ?_, ?_, hcounty, ?_, ?_⟩
  · rw [generate_eq, List.length_append, genLoop_length, genLoop_length,
      List.length_range, List.length_range']
  · rw [generate_eq, List.take_left' hlenR]
    intro r hr
    obtain ⟨i, s', -, rfl⟩ := genLoop_mem rng true _ _ r hr
    rw [genCounty_party]
    rfl
  · rw [generate_eq, List.drop_left' hlenR]
    intro r hr
    obtain ⟨i, s', -, rfl⟩ := genLoop_mem rng false _ _ r hr
    rw [genCounty_party]
    rfl
  · rw [hcounty]
    refine List.Nodup.of_map countyIdx ?_
    have h1 : (((List.range 240).map (fun i => "County " ++ toString (i + 1))).map
        countyIdx) = (List.range 240).map (fun i => i + 1) := by decide
    rw [h1]
    exact List.Nodup.map (fun a b h => by omega) (List.nodup_range 240)
  · intro r hr
    rw [generate_eq, List.mem_append] at hr
    rcases hr with hr | hr
    · obtain ⟨i, s', -, rfl⟩ := genLoop_mem rng true _ _ r hr
      obtain ⟨s'', e⟩ := genCounty_votes rng true i s'
      rw [e]
      exact hrand s''
    · obtain ⟨i, s', -, rfl⟩ := genLoop_mem rng false _ _ r hr
      obtain ⟨s'', e⟩ := genCounty_votes rng false i s'
      rw [e]
      exact hrand s''

theorem c10_generator_shape_witness :
    (generate_sample_data trivRng 42).length = 240 := by
  refine (c10_generator_shape trivRng 42 (fun s => ⟨?_, ?_⟩)).1
  · show (100 : ℤ) ≤ 100
    exact le_refl 100
  · show (100 : ℤ) ≤ 79999
    decide

/-! ### Stable sort-and-take lemmas (for `nlargest` / `nsmallest`) -/

theorem take_isPrefix {α : Type _} (n : ℕ) (l : List α) : l.take n <+: l :=
  ⟨l.drop n, List.take_append_drop n l⟩

theorem descBy_trans {α : Type} (key : α → ℚ) :
    ∀ a b c, descBy key a b → descBy key b c → descBy key a c := by
  intro a b c h1 h2
  simp only [descBy, decide_eq_true_eq] at h1 h2 ⊢
  exact le_trans h2 h1

theorem descBy_total {α : Type} (key : α → ℚ) :
    ∀ a b, descBy key a b || descBy key b a := by
  intro a b
  simpa [descBy, decide_eq_true_eq] using le_total (key b) (key a)

theorem ascBy_trans {α : Type} (key : α → ℚ) :
    ∀ a b c, ascBy key a b → ascBy key b c → ascBy key a c := by
  intro a b c h1 h2
  simp only [ascBy, decide_eq_true_eq] at h1 h2 ⊢
  exact le_trans h1 h2

theorem ascBy_total {α : Type} (key : α → ℚ) :
    ∀ a b, ascBy key a b || ascBy key b a := by
  intro a b
  simpa [ascBy, decide_eq_true_eq] using le_total (key a) (key b)

/-- A stable sort does not disturb the relative order of tied elements:
filtering the sorted list by a predicate that holds only on mutually tied
elements gives back the filtered input list, unchanged. -/
theorem mergeSort_filter_tied {α : Type} {le : α → α → Bool}
    (htrans : ∀ a b c, le a b → le b c → le a c)
    (htotal : ∀ a b, le a b || le b a)
    (p : α → Bool) (hp : ∀ a b, p a → p b → le a b) (l : List α) :
    (l.mergeSort le).filter p = l.filter p := by
  have hpair : (l.filter p).Pairwise (fun a b => le a b = true) :=
    List.pairwise_of_forall_mem_list (fun a ha b hb =>
      hp a b (List.of_mem_filter ha) (List.of_mem_filter hb))
  have hsub : (l.filter p).Sublist (l.mergeSort le) :=
    List.sublist_mergeSort htrans htotal hpair (List.filter_sublist l)
  have hff : (l.filter p).filter p = l.filter p :=
    List.filter_eq_self.mpr (fun a ha => List.of_mem_filter ha)
  have h2 : (l.filter p).Sublist ((l.mergeSort le).filter p) := by
    have := hsub.filter p
    rwa [hff] at this
  have hperm : ((l.mergeSort le).filter p).Perm (l.filter p) :=
    (List.mergeSort_perm l le).filter p
  exact (h2.eq_of_length hperm.length_eq.symm).symm

/-- Specification of "stable sort by `le`, then take `n`": correct length,
sortedness, the kept elements dominate the dropped ones, and unmodified
(sorted) output when `n` covers the whole list. -/
theorem sortTake_spec {α : Type} {le : α → α → Bool}
    (htrans : ∀ a b c, le a b → le b c → le a c)
    (htotal : ∀ a b, le a b || le b a) (n : ℕ) (l : List α) :
    ((l.mergeSort le).take n).length = min n l.length ∧
    ((l.mergeSort le).take n).Pairwise (fun a b => le a b = true) ∧
    (∃ rest, (((l.mergeSort le).take n) ++ rest).Perm l ∧
      ∀ a ∈ (l.mergeSort le).take n, ∀ b ∈ rest, le a b) ∧
    (l.length ≤ n → ((l.mergeSort le).take n).Perm l) := by
  have hsorted := List.sorted_mergeSort htrans htotal l
  refine ⟨?_, ?_, ?_, ?_⟩
  · rw [List.length_take, List.length_mergeSort]
  · exact hsorted.sublist (List.take_sublist n _)
  · refine ⟨(l.mergeSort le).drop n, ?_, ?_⟩
    · rw [List.take_append_drop]
      exact List.mergeSort_perm l le
    · have h := hsorted
      rw [← List.take_append_drop n (l.mergeSort le), List.pairwise_append] at h
      exact h.2.2
  · intro hn
    have : (l.mergeSort le).take n = l.mergeSort le :=
      List.take_of_length_le (by rw [List.length_mergeSort]; exact hn)
    rw [this]
    exact List.mergeSort_perm l le

/-- The tie-breaking property of "stable sort, then take `n`": for any key
value `v`, the kept elements with that key are an initial segment (in
input order) of the input elements with that key — first seen wins. -/
theorem sortTake_tied_isPrefix {α : Type} {le : α → α → Bool}
    (htrans : ∀ a b c, le a b → le b c → le a c)
    (htotal : ∀ a b, le a b || le b a)
    (p : α → Bool) (hp : ∀ a b, p a → p b → le a b) (n : ℕ) (l : List α) :
    ((l.mergeSort le).take n).filter p <+: l.filter p := by
  have h1 : ((l.mergeSort le).take n).filter p <+: (l.mergeSort le).filter p :=
    List.IsPrefix.filter p (take_isPrefix n _)
  rwa [mergeSort_filter_tied htrans htotal p hp l] at h1

/-- Claim C5: `top_shift` with direction most-positive returns the `n`
records with the largest `change = margin_2024 - margin_2020`, in
descending order of `change`, ties broken by original input order
(first-seen wins); symmetrically for most-negative with ascending order;
an `n` exceeding the number of records returns all records. -/
theorem c5_top_shift_spec (records : List CountyRecord) (n : ℕ) :
    ((top_shift records n .mostPositive).length = min n records.length ∧
     (top_shift records n .mostPositive).Pairwise
       (fun a b => change b ≤ change a) ∧
     (∃ rest, ((top_shift records n .mostPositive) ++ rest).Perm records ∧
       ∀ a ∈ top_shift records n .mostPositive, ∀ b ∈ rest,
         change b ≤ change a) ∧
     (∀ v : ℚ,
       (top_shift records n .mostPositive).filter (fun r => change r = v) <+:
         records.filter (fun r => change r = v)) ∧
     (records.length ≤ n → (top_shift records n .mostPositive).Perm records)) ∧
    ((top_shift records n .mostNegative).length = min n records.length ∧
     (top_shift records n .mostNegative).Pairwise
       (fun a b => change a ≤ change b) ∧
     (∃ rest, ((top_shift records n .mostNegative) ++ rest).Perm records ∧
       ∀ a ∈ top_shift records n .mostNegative, ∀ b ∈ rest,
         change a ≤ change b) ∧
     (∀ v : ℚ,
       (top_shift records n .mostNegative).filter (fun r => change r = v) <+:
         records.filter (fun r => change r = v)) ∧
     (records.length ≤ n → (top_shift records n .mostNegative).Perm records)) := by
  constructor
  · obtain ⟨h1, h2, ⟨rest, hr1, hr2⟩, h4⟩ :=
      sortTake_spec (descBy_trans change) (descBy_total change) n records
    refine ⟨h1, ?_, ⟨rest, hr1, ?_⟩, ?_, h4⟩
    · exact h2.imp (fun h => by simpa [descBy, decide_eq_true_eq] using h)
    · intro a ha b hb
      have := hr2 a ha b hb
      simpa [descBy, decide_eq_true_eq] using this
    · intro v
      exact sortTake_tied_isPrefix (descBy_trans change) (descBy_total change) _
        (fun a b hpa hpb => by
          simp only [decide_eq_true_eq] at hpa hpb
          simp [descBy, hpa, hpb]) n records
  · obtain ⟨h1, h2, ⟨rest, hr1, hr2⟩, h4⟩ :=
      sortTake_spec (ascBy_trans change) (ascBy_total change) n records
    refine ⟨h1, ?_, ⟨rest, hr1, ?_⟩, ?_, h4⟩
    · exact h2.imp (fun h => by simpa [ascBy, decide_eq_true_eq] using h)
    · intro a ha b hb
      have := hr2 a ha b hb
      simpa [ascBy, decide_eq_true_eq] using this
    · intro v
      exact sortTake_tied_isPrefix (ascBy_trans change) (ascBy_total change) _
        (fun a b hpa hpb => by
          simp only [decide_eq_true_eq] at hpa hpb
          simp [ascBy, hpa, hpb]) n records

theorem c5_top_shift_spec_witness :
    ((top_shift exRecsC5 2 .mostPositive).Perm exRecsC5 → False) ∨
      (top_shift exRecsC5 2 .mostPositive).length = min 2 exRecsC5.length :=
  Or.inr (c5_top_shift_spec exRecsC5 2).1.1

/-! ### Pipeline A: harmonization (C9) -/

/-- Claim C9 counterexample: a CO₂ row with a missing region code and year
2000 survives harmonization — the claim that harmonization of *every*
source table drops rows with a missing region-code key is false for the
CO₂ table (only the energy table gets `dropna(subset=["iso_code"])`). -/
theorem c9_counterexample : ∃ r ∈ harmonizeCo2 exC9, r.iso_code = none := by
  with_unfolding_all decide

/-- Claim C9 (amended): both harmonizations drop exactly the rows with
year before 1990; the energy harmonization additionally drops rows with a
missing region code, while the CO₂ harmonization keeps them (they are
eliminated later, by the inner join). -/
theorem c9_harmonize_filters (eL : List EnergyRawRow) (cL : List Co2Row)
    (e : EnergyRawRow) (c : Co2Row) :
    (e ∈ harmonizeEnergy eL ↔ e ∈ eL ∧ 1990 ≤ e.year ∧ e.iso_code.isSome) ∧
    (c ∈ harmonizeCo2 cL ↔ c ∈ cL ∧ 1990 ≤ c.year) := by
  constructor
  · unfold harmonizeEnergy
    simp only [List.mem_filter, decide_eq_true_eq]
    constructor
    · rintro ⟨⟨h1, h2⟩, h3⟩
      exact ⟨h1, h2, h3⟩
    · rintro ⟨h1, h2, h3⟩
      exact ⟨⟨h1, h2⟩, h3⟩
  · unfold harmonizeCo2
    simp [List.mem_filter]

theorem c9_harmonize_filters_witness :
    (⟨some "AAA", "Aaaland", 2000, some 2⟩ : Co2Row) ∈ harmonizeCo2 exC3 :=
  ((c9_harmonize_filters [] exC3
      ⟨none, "", 0, none, none, none, none, none, none, none, none, none,
        none, none, none⟩
      ⟨some "AAA", "Aaaland", 2000, some 2⟩).2).mpr
    ⟨by with_unfolding_all decide, by decide⟩

/-! ### Pipeline A: the GDP fallback (C6) -/

/-- Claim C6: when the primary GDP fetch raises, the loader falls back to
`gdp / population` computed elementwise from the energy table and surfaces
a warning; the fallback (and the warning) happen exactly when the primary
path raises; both paths produce rows of the same `GdpRow` schema. -/
theorem c6_gdp_fallback (pf : Except String (List WbRow))
    (energy : List EnergyRawRow) :
    ((fetch_gdp_or_fallback pf energy).2 = true ↔ ∃ msg, pf = .error msg) ∧
    (∀ msg, pf = .error msg →
      (fetch_gdp_or_fallback pf energy).1 = fallbackGdp energy) ∧
    (∀ t, pf = .ok t →
      (fetch_gdp_or_fallback pf energy).1 = processPrimaryGdp t) ∧
    (∀ r ∈ fallbackGdp energy, ∃ e ∈ energy, e.iso_code = some r.iso_code ∧
      e.year = r.year ∧ ∃ g p, e.gdp = some g ∧ e.population = some p ∧
        r.gdp_percap = g / p) := by
  refine ⟨?_, ?_, ?_, ?_⟩
  · cases pf <;> simp [fetch_gdp_or_fallback]
  · intro msg h
    subst h
    rfl
  · intro t h
    subst h
    rfl
  · intro r hr
    unfold fallbackGdp at hr
    rw [List.mem_filterMap] at hr
    obtain ⟨e, he, hmap⟩ := hr
    refine ⟨e, he, ?_⟩
    cases hiso : e.iso_code with
    | none => rw [hiso] at hmap; simp at hmap
    | some i =>
      cases hg : e.gdp with
      | none => rw [hiso, hg] at hmap; simp at hmap
      | some g =>
        cases hp : e.population with
        | none => rw [hiso, hg, hp] at hmap; simp at hmap
        | some p =>
          rw [hiso, hg, hp] at hmap
          simp only [Option.some.injEq] at hmap
          subst hmap
          exact ⟨rfl, rfl, g, p, rfl, rfl, rfl⟩

theorem c6_gdp_fallback_witness :
    (fetch_gdp_or_fallback (.error "API down") exFB).1 = fallbackGdp exFB :=
  (c6_gdp_fallback (.error "API down") exFB).2.1 "API down" rfl

/-! ### Pipeline A: the two inner joins (C3) -/

theorem mem_mergeEnergyGdp {energy : List EnergyRawRow} {gdp : List GdpRow}
    {m : MergedRow} :
    m ∈ mergeEnergyGdp energy gdp ↔
      ∃ e ∈ energy, ∃ g ∈ gdp, e.iso_code = some g.iso_code ∧
        e.year = g.year ∧ m = mkMergedRow e g := by
  unfold mergeEnergyGdp
  simp only [List.mem_flatMap, List.mem_map, List.mem_filter,
    decide_eq_true_eq]
  constructor
  · rintro ⟨e, he, g, ⟨hg, h1, h2⟩, rfl⟩
    exact ⟨e, he, g, hg, h1, h2, rfl⟩
  · rintro ⟨e, he, g, hg, h1, h2, rfl⟩
    exact ⟨e, he, g, ⟨hg, h1, h2⟩, rfl⟩

theorem mem_mergeCo2 {merged : List MergedRow} {co2 : List Co2Row}
    {r : CombinedRow} :
    r ∈ mergeCo2 merged co2 ↔
      ∃ m ∈ merged, ∃ c ∈ co2, m.iso_code = c.iso_code ∧
        m.year = c.year ∧ r = mkCombinedRow m c := by
  unfold mergeCo2
  simp only [List.mem_flatMap, List.mem_map, List.mem_filter,
    decide_eq_true_eq]
  constructor
  · rintro ⟨m, hm, c, ⟨hc, h1, h2⟩, rfl⟩
    exact ⟨m, hm, c, hc, h1, h2, rfl⟩
  · rintro ⟨m, hm, c, hc, h1, h2, rfl⟩
    exact ⟨m, hm, c, ⟨hc, h1, h2⟩, rfl⟩

/-- Claim C3 counterexample: with a harmonizable energy row whose
`biofuel` metric is null, the merged output (which keys match in all three
tables) contains a row with a missing metric column — the "no row of the
output has a missing metric column" part of the claim is false as stated
for arbitrary harmonized inputs. -/
theorem c3_counterexample :
    ∃ r ∈ load_merge exE3 exG3 exC3, ¬ rowComplete r := by
  with_unfolding_all decide

/-- Claim C3 (amended): the merged output of the two sequential inner
joins contains exactly the `(region_code, year)` pairs present in all
three inputs; every output row copies its values from one row of each
input (the join introduces no nulls); consequently, when every input row
has all its metric values present, no output row has a missing metric
column. -/
theorem c3_merge_inner_join (energy : List EnergyRawRow) (gdp : List GdpRow)
    (co2 : List Co2Row) :
    (∀ k : Option String × ℤ,
      k ∈ (load_merge energy gdp co2).map combKey ↔
        (k ∈ energy.map energyKey ∧ k ∈ gdp.map gdpKey ∧
          k ∈ co2.map co2Key)) ∧
    (∀ r ∈ load_merge energy gdp co2, ∃ e ∈ energy, ∃ g ∈ gdp, ∃ c ∈ co2,
      r = mkCombinedRow (mkMergedRow e g) c) ∧
    ((∀ e ∈ energy, energyComplete e) →
      (∀ c ∈ co2, c.co2_per_capita.isSome) →
      ∀ r ∈ load_merge energy gdp co2, rowComplete r) := by
  have hprov : ∀ r ∈ load_merge energy gdp co2, ∃ e ∈ energy, ∃ g ∈ gdp,
      ∃ c ∈ co2, e.iso_code = some g.iso_code ∧ e.year = g.year ∧
        e.iso_code = c.iso_code ∧ e.year = c.year ∧
        r = mkCombinedRow (mkMergedRow e g) c := by
    intro r hr
    rw [load_merge, mem_mergeCo2] at hr
    obtain ⟨m, hm, c, hc, hk1, hk2, rfl⟩ := hr
    rw [mem_mergeEnergyGdp] at hm
    obtain ⟨e, he, g, hg, he1, he2, rfl⟩ := hm
    exact ⟨e, he, g, hg, c, hc, he1, he2, hk1, hk2, rfl⟩
  refine ⟨?_, ?_, ?_⟩
  · intro k
    constructor
    · intro hk
      rw [List.mem_map] at hk
      obtain ⟨r, hr, rfl⟩ := hk
      obtain ⟨e, he, g, hg, c, hc, h1, h2, h3, h4, rfl⟩ := hprov r hr
      refine ⟨?_, ?_, ?_⟩
      · rw [List.mem_map]
        exact ⟨e, he, rfl⟩
      · rw [List.mem_map]
        refine ⟨g, hg, ?_⟩
        unfold combKey gdpKey mkCombinedRow mkMergedRow
        simp only []
        rw [← h1, ← h2]
      · rw [List.mem_map]
        refine ⟨c, hc, ?_⟩
        unfold combKey co2Key mkCombinedRow mkMergedRow
        simp only []
        rw [← h3, ← h4]
    · rintro ⟨hk1, hk2, hk3⟩
      rw [List.mem_map] at hk1 hk2 hk3
      obtain ⟨e, he, rfl⟩ := hk1
      obtain ⟨g, hg, hkg⟩ := hk2
      obtain ⟨c, hc, hkc⟩ := hk3
      unfold energyKey gdpKey at hkg
      unfold energyKey co2Key at hkc
      have hg1 : some g.iso_code = e.iso_code := congrArg Prod.fst hkg
      have hg2 : g.year = e.year := congrArg Prod.snd hkg
      have hc1 : c.iso_code = e.iso_code := congrArg Prod.fst hkc
      have hc2 : c.year = e.year := congrArg Prod.snd hkc
      rw [List.mem_map]
      refine ⟨mkCombinedRow (mkMergedRow e g) c, ?_, rfl⟩
      rw [load_merge, mem_mergeCo2]
      refine ⟨mkMergedRow e g, ?_, c, hc, hc1.symm, hc2.symm, rfl⟩
      rw [mem_mergeEnergyGdp]
      exact ⟨e, he, g, hg, hg1.symm, hg2.symm, rfl⟩
  · intro r hr
    obtain ⟨e, he, g, hg, c, hc, -, -, -, -, rfl⟩ := hprov r hr
    exact ⟨e, he, g, hg, c, hc, rfl⟩
  · intro hE hC r hr
    obtain ⟨e, he, g, hg, c, hc, -, -, -, -, rfl⟩ := hprov r hr
    obtain ⟨q1, q2, q3, q4, q5, q6, q7, q8, q9, q10⟩ := hE e he
    have q11 := hC c hc
    exact ⟨q1, q2, q3, q4, q5, q6, q7, q8, q9, q10, q11⟩

theorem c3_merge_inner_join_witness :
    ∀ r ∈ load_merge exE3c exG3 exC3, rowComplete r :=
  (c3_merge_inner_join exE3c exG3 exC3).2.2
    (by with_unfolding_all decide) (by with_unfolding_all decide)

/-! ### Pipeline A: share normalization lemmas (C7, C8) -/

theorem sum_map_zeroQ {α : Type} (l : List α) :
    (l.map (fun _ => (0 : ℚ))).sum = 0 := by
  induction l with
  | nil => rfl
  | cons a t ih => simp [ih]

theorem sum_map_addQ {α : Type} (f g : α → ℚ) (l : List α) :
    (l.map (fun x => f x + g x)).sum = (l.map f).sum + (l.map g).sum := by
  induction l with
  | nil => simp
  | cons a t ih =>
    simp only [List.map_cons, List.sum_cons, ih]
    ring

theorem sum_ite_eq_of_nodup (S : List String) (hN : S.Nodup) (x : String)
    (hx : x ∈ S) (v : ℚ) :
    (S.map (fun s => if x = s then v else 0)).sum = v := by
  induction S with
  | nil => cases hx
  | cons a t ih =>
    have hN' := List.nodup_cons.mp hN
    rcases List.mem_cons.mp hx with rfl | hx'
    · rw [List.map_cons, List.sum_cons, if_pos rfl]
      have hz : ∀ s ∈ t, (if x = s then v else 0) = (0 : ℚ) :=
        fun s hs => if_neg (fun (he : x = s) => hN'.1 (he ▸ hs))
      rw [List.map_congr_left hz, sum_map_zeroQ, add_zero]
    · rw [List.map_cons, List.sum_cons,
        if_neg (fun (he : x = a) => hN'.1 (he ▸ hx')), zero_add]
      exact ih hN'.2 hx'

/-- Summing the pivot cells of the year-`y` row over any duplicate-free
set of sources covering the group gives the total of the group's values:
the cells partition the rows with year `y`. -/
theorem sum_cellVals_eq (y : ℤ) : ∀ (rows : List LongRow) (S : List String),
    S.Nodup → (∀ r ∈ rows, r.year = y → r.source ∈ S) →
    (S.map (fun s => (cellVals rows y s).sum)).sum =
      ((rows.filter (fun r => r.year = y)).map (fun r => r.value)).sum
  | [], S, hN, hC => by
      have hz : ∀ s ∈ S, (cellVals ([] : List LongRow) y s).sum = (0 : ℚ) :=
        fun s _ => rfl
      rw [List.map_congr_left hz, sum_map_zeroQ]
      rfl
  | r :: t, S, hN, hC => by
      have hCt : ∀ x ∈ t, x.year = y → x.source ∈ S :=
        fun x hx => hC x (List.mem_cons_of_mem r hx)
      have hpt : ∀ s ∈ S, (cellVals (r :: t) y s).sum =
          (if r.year = y ∧ r.source = s then r.value else 0) +
            (cellVals t y s).sum := by
        intro s _
        unfold cellVals
        by_cases hrs : r.year = y ∧ r.source = s
        · rw [List.filter_cons_of_pos (by simpa using hrs), List.map_cons,
            List.sum_cons, if_pos hrs]
        · rw [List.filter_cons_of_neg (by simpa using hrs), if_neg hrs,
            zero_add]
      rw [List.map_congr_left hpt, sum_map_addQ,
        sum_cellVals_eq y t S hN hCt]
      by_cases hy : r.year = y
      · have hx : r.source ∈ S := hC r (List.mem_cons_self r t) hy
        have h1 : ∀ s ∈ S,
            (if r.year = y ∧ r.source = s then r.value else 0) =
              (if r.source = s then r.value else 0) := by
          intro s _
          by_cases hs : r.source = s <;> simp [hy, hs]
        rw [List.map_congr_left h1,
          sum_ite_eq_of_nodup S hN r.source hx r.value,
          List.filter_cons_of_pos (by simpa using hy), List.map_cons,
          List.sum_cons]
      · have h1 : ∀ s ∈ S,
            (if r.year = y ∧ r.source = s then r.value else 0) = (0 : ℚ) := by
          intro s _
          simp [hy]
        rw [List.map_congr_left h1, sum_map_zeroQ, zero_add,
          List.filter_cons_of_neg (by simpa using hy)]

theorem sum_filterMap_cellAgg (rows : List LongRow) (y : ℤ) :
    ∀ (S : List String),
    (S.filterMap (fun s => cellAgg rows y s)).sum =
      (S.map (fun s => (cellVals rows y s).sum)).sum
  | [] => rfl
  | a :: t => by
      rw [List.filterMap_cons]
      by_cases h : cellVals rows y a = []
      · have hA : cellAgg rows y a = none := by
          unfold cellAgg
          rw [if_pos h]
        simp [hA, h, sum_filterMap_cellAgg rows y t]
      · have hA : cellAgg rows y a = some (cellVals rows y a).sum := by
          unfold cellAgg
          rw [if_neg h]
        simp [hA, sum_filterMap_cellAgg rows y t]

/-- `r.sum()` over the non-null pivot cells of year `y` equals the plain
total of the group's values. -/
theorem rowDenom_eq_rowSumQ (rows : List LongRow) (y : ℤ) :
    rowDenom rows y = rowSumQ rows y := by
  unfold rowDenom
  rw [sum_filterMap_cellAgg rows y (sourcesOf rows),
    sum_cellVals_eq y rows (sourcesOf rows) (List.nodup_dedup _)
      (fun r hr _ => List.mem_dedup.mpr (List.mem_map.mpr ⟨r, hr, rfl⟩))]
  rfl

theorem mem_mixBlock_year (rows : List LongRow) (k : ℤ) :
    ∀ m ∈ mixBlock rows k, m.year = k := by
  intro m hm
  unfold mixBlock at hm
  rw [List.mem_filterMap] at hm
  obtain ⟨s, -, hsome⟩ := hm
  cases h : shareCell rows k s <;> rw [h] at hsome <;> simp at hsome <;>
    rw [← hsome]

theorem filter_flatMap_blocks (f : ℤ → List MixRow) (y : ℤ) :
    ∀ (K : List ℤ), K.Nodup → (∀ k, ∀ m ∈ f k, m.year = k) →
    ((K.flatMap f).filter (fun m => m.year = y)) = if y ∈ K then f y else []
  | [], _, _ => by simp
  | a :: t, hN, hf => by
      have hN' := List.nodup_cons.mp hN
      rw [List.flatMap_cons, List.filter_append]
      by_cases hay : a = y
      · subst hay
        have h1 : (f a).filter (fun m => m.year = a) = f a :=
          List.filter_eq_self.mpr (fun m hm => by simp [hf a m hm])
        have h2 : ((t.flatMap f).filter (fun m => m.year = a)) = [] := by
          rw [filter_flatMap_blocks f a t hN'.2 hf, if_neg hN'.1]
        rw [h1, h2, List.append_nil, if_pos (List.mem_cons_self a t)]
      · have h1 : (f a).filter (fun m => m.year = y) = [] :=
          List.filter_eq_nil_iff.mpr (fun m hm => by
            simp only [decide_eq_true_eq, hf a m hm]
            exact fun h => hay h)
        rw [h1, List.nil_append, filter_flatMap_blocks f y t hN'.2 hf]
        by_cases hyt : y ∈ t
        · rw [if_pos hyt, if_pos (List.mem_cons_of_mem a hyt)]
        · rw [if_neg hyt, if_neg ?_]
          intro hmem
          rcases List.mem_cons.mp hmem with h | h
          · exact hay h.symm
          · exact hyt h

/-- The year-`y` group of the `mix` output is exactly the block of year
`y` (or empty when year `y` does not occur in the long table). -/
theorem mix_filter_year (rows : List LongRow) (y : ℤ) :
    (mix rows).filter (fun m => m.year = y) =
      if y ∈ yearsOf rows then mixBlock rows y else [] := by
  unfold mix
  exact filter_flatMap_blocks (fun k => mixBlock rows k) y (yearsOf rows)
    (List.nodup_dedup _) (fun k => mem_mixBlock_year rows k)

theorem sum_toQ_mixBlock_aux (rows : List LongRow) (y : ℤ) :
    ∀ (S : List String),
    ((S.filterMap (fun s =>
      match shareCell rows y s with
      | PVal.nan => none
      | p => some ({ year := y, source := s, share := p } : MixRow))).map
        (fun m => m.share.toQ)).sum =
      (S.map (fun s => (shareCell rows y s).toQ)).sum
  | [] => rfl
  | a :: t => by
      rw [List.filterMap_cons, List.map_cons, List.sum_cons]
      cases h : shareCell rows y a with
      | nan =>
          simp only [h]
          rw [sum_toQ_mixBlock_aux rows y t]
          simp [PVal.toQ]
      | posinf =>
          simp only [h]
          rw [List.map_cons, List.sum_cons, sum_toQ_mixBlock_aux rows y t]
      | neginf =>
          simp only [h]
          rw [List.map_cons, List.sum_cons, sum_toQ_mixBlock_aux rows y t]
      | num q =>
          simp only [h]
          rw [List.map_cons, List.sum_cons, sum_toQ_mixBlock_aux rows y t]

theorem sum_toQ_mixBlock (rows : List LongRow) (y : ℤ) :
    ((mixBlock rows y).map (fun m => m.share.toQ)).sum =
      ((sourcesOf rows).map (fun s => (shareCell rows y s).toQ)).sum := by
  unfold mixBlock
  exact sum_toQ_mixBlock_aux rows y (sourcesOf rows)

/-- With a non-zero group total, a share cell is either `NaN` (empty
cell) or a finite number — never an infinity. -/
theorem shareCell_cases (rows : List LongRow) (y : ℤ) (s : String)
    (h : rowSumQ rows y ≠ 0) :
    shareCell rows y s = PVal.nan ∨ ∃ q, shareCell rows y s = PVal.num q := by
  unfold shareCell
  by_cases hc : cellVals rows y s = []
  · have hA : cellAgg rows y s = none := by
      unfold cellAgg
      rw [if_pos hc]
    rw [hA]
    exact Or.inl rfl
  · have hA : cellAgg rows y s = some (cellVals rows y s).sum := by
      unfold cellAgg
      rw [if_neg hc]
    simp only [hA]
    unfold pandasDiv
    rw [rowDenom_eq_rowSumQ, if_neg h]
    exact Or.inr ⟨_, rfl⟩

theorem shareCell_toQ_of_ne (rows : List LongRow) (y : ℤ)
    (h : rowSumQ rows y ≠ 0) (s : String) :
    (shareCell rows y s).toQ = (cellVals rows y s).sum * (rowSumQ rows y)⁻¹ := by
  unfold shareCell
  by_cases hc : cellVals rows y s = []
  · have hA : cellAgg rows y s = none := by
      unfold cellAgg
      rw [if_pos hc]
    simp only [hA, hc]
    simp [PVal.toQ]
  · have hA : cellAgg rows y s = some (cellVals rows y s).sum := by
      unfold cellAgg
      rw [if_neg hc]
    simp only [hA]
    unfold pandasDiv
    rw [rowDenom_eq_rowSumQ, if_neg h]
    simp [PVal.toQ, div_eq_mul_inv]

/-- Main grouping lemma: in a year group with non-zero total, every share
of the `mix` output is finite and the shares sum to exactly 1. -/
theorem mixGroup_spec (rows : List LongRow) (y : ℤ)
    (h : rowSumQ rows y ≠ 0) :
    (∀ m ∈ (mix rows).filter (fun m => m.year = y),
      ∃ q, m.share = PVal.num q) ∧
    (((mix rows).filter (fun m => m.year = y)).map
      (fun m => m.share.toQ)).sum = 1 := by
  have hyin : y ∈ yearsOf rows := by
    by_contra hy
    apply h
    unfold rowSumQ
    have hnil : rows.filter (fun r => r.year = y) = [] :=
      List.filter_eq_nil_iff.mpr (fun r hr hdec =>
        hy (List.mem_dedup.mpr
          (List.mem_map.mpr ⟨r, hr, of_decide_eq_true hdec⟩)))
    rw [hnil]
    rfl
  have hgrp : (mix rows).filter (fun m => m.year = y) = mixBlock rows y := by
    rw [mix_filter_year, if_pos hyin]
  constructor
  · intro m hm
    rw [hgrp] at hm
    unfold mixBlock at hm
    rw [List.mem_filterMap] at hm
    obtain ⟨s, -, hsome⟩ := hm
    rcases shareCell_cases rows y s h with hnan | ⟨q, hq⟩
    · rw [hnan] at hsome
      simp at hsome
    · rw [hq] at hsome
      simp at hsome
      exact ⟨q, by rw [← hsome]⟩
  · rw [hgrp, sum_toQ_mixBlock,
      List.map_congr_left (fun s _ => shareCell_toQ_of_ne rows y h s),
      List.sum_map_mul_right,
      sum_cellVals_eq y rows (sourcesOf rows) (List.nodup_dedup _)
        (fun r hr _ => List.mem_dedup.mpr (List.mem_map.mpr ⟨r, hr, rfl⟩))]
    exact mul_inv_cancel₀ h

/-- Claim C7 counterexample: a (country, year) group whose only non-null
source value is `0` has a zero group sum, so its share is `0/0 = NaN` and
is removed by the final `dropna`; the group has at least one non-null
source value, yet its output shares sum to `0`, not to `1 ± 1e-9` — the
claim is false as stated. -/
theorem c7_counterexample :
    (∃ r ∈ exLong0, r.year = 2000) ∧
    ¬ (|(((mix exLong0).filter (fun m => m.year = 2000)).map
        (fun m => m.share.toQ)).sum - 1| ≤ 1 / 1000000000) := by
  with_unfolding_all decide

/-- Claim C7 (amended): in the long-format electricity-mix view, for every
(country, year) group whose value total is non-zero, all shares of the
group are finite and they sum to exactly 1 (in particular within 1e-9);
rows whose underlying value is null are excluded from the long table (each
long row's value is one of the non-null source-column values of a combined
row) rather than treated as zero.  (A group with a non-null value but a
zero total yields `NaN` shares which the final `dropna` removes.) -/
theorem c7_shares_sum_one (combined : List CombinedRow) (c : String)
    (y1 y2 y : ℤ)
    (h : rowSumQ (filter_long c y1 y2 (long_energy combined)) y ≠ 0) :
    (∀ lr ∈ long_energy combined, ∃ cr ∈ combined, ∃ p ∈ sourceCols,
      lr.source = p.1 ∧ p.2 cr = some lr.value) ∧
    (∀ m ∈ (mix (filter_long c y1 y2 (long_energy combined))).filter
        (fun m => m.year = y), ∃ q, m.share = PVal.num q) ∧
    |(((mix (filter_long c y1 y2 (long_energy combined))).filter
        (fun m => m.year = y)).map (fun m => m.share.toQ)).sum - 1| ≤
      1 / 1000000000 := by
  obtain ⟨hfin, hsum⟩ := mixGroup_spec _ y h
  refine ⟨?_, hfin, ?_⟩
  · intro lr hl
    unfold long_energy at hl
    rw [List.mem_flatMap] at hl
    obtain ⟨p, hp, h2⟩ := hl
    rw [List.mem_filterMap] at h2
    obtain ⟨cr, hcr, hmap⟩ := h2
    rw [Option.map_eq_some'] at hmap
    obtain ⟨v, hv, rfl⟩ := hmap
    exact ⟨cr, hcr, p, hp, rfl, hv⟩
  · rw [hsum]
    norm_num

theorem c7_shares_sum_one_witness :
    |(((mix (filter_long "Xland" 1990 2100 (long_energy [exComb1]))).filter
        (fun m => m.year = 2000)).map (fun m => m.share.toQ)).sum - 1| ≤
      1 / 1000000000 :=
  (c7_shares_sum_one [exComb1] "Xland" 1990 2100 2000
    (by with_unfolding_all decide)).2.2

/-- Claim C8 counterexample: for a group with zero sum, the share becomes
`NaN` but is then removed by the final `.dropna()` — the output `mix`
table is empty, so the null share is *not* propagated to the output, it is
dropped; the claim that the null is propagated is false as stated. -/
theorem c8_counterexample :
    shareCell exLong0 2000 "coal" = PVal.nan ∧ mix exLong0 = [] := by
  with_unfolding_all decide

/-- Claim C8 (amended): for every (region, year) group of non-negative
values whose sum is zero, the share of every source in that group is null
(`NaN`) — the computation neither raises nor substitutes zero — and the
final `dropna` then excludes the whole group from the `mix` output (a
group-sum of null cannot occur: pandas `sum` over a pivot row yields `0.0`
for all-`NaN` rows, and every pivot row has a non-null cell). -/
theorem c8_zero_sum_shares (rows : List LongRow) (y : ℤ)
    (hnn : ∀ r ∈ rows, r.year = y → 0 ≤ r.value)
    (h0 : rowSumQ rows y = 0) :
    (∀ s, shareCell rows y s = PVal.nan) ∧
    ((mix rows).filter (fun m => m.year = y)) = [] := by
  have hvals : ∀ v ∈ (rows.filter (fun r => r.year = y)).map
      (fun r => r.value), 0 ≤ v := by
    intro v hv
    rw [List.mem_map] at hv
    obtain ⟨r, hr, rfl⟩ := hv
    rw [List.mem_filter] at hr
    exact hnn r hr.1 (of_decide_eq_true hr.2)
  have hshare : ∀ s, shareCell rows y s = PVal.nan := by
    intro s
    unfold shareCell
    by_cases hc : cellVals rows y s = []
    · have hA : cellAgg rows y s = none := by
        unfold cellAgg
        rw [if_pos hc]
      simp only [hA]
    · have hA : cellAgg rows y s = some (cellVals rows y s).sum := by
        unfold cellAgg
        rw [if_neg hc]
      simp only [hA]
      have hsubl : (cellVals rows y s).Sublist
          ((rows.filter (fun r => r.year = y)).map (fun r => r.value)) := by
        unfold cellVals
        refine List.Sublist.map _ ?_
        exact List.monotone_filter_right rows (fun r hr => by
          simp only [decide_eq_true_eq] at hr ⊢
          exact hr.1)
      have hle : (cellVals rows y s).sum ≤
          ((rows.filter (fun r => r.year = y)).map (fun r => r.value)).sum :=
        hsubl.sum_le_sum hvals
      have hge : 0 ≤ (cellVals rows y s).sum :=
        List.sum_nonneg (fun x hx => hvals x (hsubl.subset hx))
      have htot : ((rows.filter (fun r => r.year = y)).map
          (fun r => r.value)).sum = 0 := h0
      have hsv : (cellVals rows y s).sum = 0 := by linarith
      rw [hsv]
      unfold pandasDiv
      rw [rowDenom_eq_rowSumQ, h0]
      simp
  refine ⟨hshare, ?_⟩
  rw [mix_filter_year]
  by_cases hy : y ∈ yearsOf rows
  · rw [if_pos hy]
    unfold mixBlock
    rw [List.filterMap_eq_nil_iff]
    intro s _
    rw [hshare s]
  · rw [if_neg hy]

theorem c8_zero_sum_shares_witness :
    (mix exLong0).filter (fun m => m.year = 2000) = [] :=
  (c8_zero_sum_shares exLong0 2000 (by with_unfolding_all decide)
    (by with_unfolding_all decide)).2
